import Mathlib

/-!
Verification of the request-lifecycle / streaming-relay core of the fsWebui
backend: the tool-permission filter (`getAllowedTools`), the rule injector
(`prepareMessageWithRules`), the turn executor (`executeClaudeCommand`) and
the rules loader (`loadRules` / `getCachedRules`), shallowly embedded from
the TypeScript source.  JavaScript strings are modelled as Lean `String`,
optional parameters as `Option String` together with JavaScript truthiness
(the empty string is falsy), the `Map` of abort controllers as a membership
function `String → Bool`, and the external engine call as an explicit
outcome parameter (the sequence of opaque SDK messages it yields, ended
either normally or by a thrown JavaScript value).  The JavaScript string
primitives `startsWith`, `includes` and `substring(1)` are modelled on the
character list of the string.
-/

namespace FsWebui

/-- Opaque SDK message payload forwarded verbatim in `claude_json` events. -/
abbrev SDKMessage := String

/-- JavaScript truthiness for an optional string parameter: falsy when the
parameter is absent (`undefined`) or is the empty string. -/
def truthyOptStr : Option String → Bool
  | none => false
  | some s => s != ""

/-- `p` is an initial segment of the character list `s`
(JavaScript `String.prototype.startsWith` on the underlying characters). -/
def charsStartWith : List Char → List Char → Bool
  | _, [] => true
  | [], _ :: _ => false
  | c :: cs, p :: ps => c == p && charsStartWith cs ps

/-- JavaScript `s.startsWith(p)`. -/
def strStartsWith (s p : String) : Bool :=
  charsStartWith s.data p.data

/-- `sub` occurs contiguously in the character list `s`. -/
def charsInclude : List Char → List Char → Bool
  | [], sub => sub.isEmpty
  | c :: cs, sub => charsStartWith (c :: cs) sub || charsInclude cs sub

/-- JavaScript `s.includes(sub)`. -/
def strIncludes (s sub : String) : Bool :=
  charsInclude s.data sub.data

/-- JavaScript `s.substring(1)`: the string without its first character. -/
def strSubstringFrom1 (s : String) : String :=
  String.mk (s.data.drop 1)

/-! ## Tool-permission filter (`getAllowedTools`, src/unnamed/part_001) -/

/-- `READ_ONLY_TOOLS` constant: the fixed read-only baseline whitelist. -/
def READ_ONLY_TOOLS : List String :=
  ["Read", "Grep", "Glob", "LSP", "Task"]

/-- `BLOCKED_WRITE_TOOLS` constant: the fixed write-capable blocklist. -/
def BLOCKED_WRITE_TOOLS : List String :=
  ["Write", "Edit", "Delete", "Move", "Bash"]

/-- The blocklist test applied to each user-approved entry:
`BLOCKED_WRITE_TOOLS.some(blocked => tool === blocked || tool.startsWith(blocked + "("))`. -/
def isBlockedTool (tool : String) : Bool :=
  BLOCKED_WRITE_TOOLS.any fun blocked =>
    tool == blocked || strStartsWith tool (blocked ++ "(")

/-- One iteration of the loop body in `getAllowedTools`: skip blocked tools,
skip tools already present, otherwise push onto the accumulated list. -/
def addApprovedTool (tools : List String) (tool : String) : List String :=
  if isBlockedTool tool then tools
  else if tools.contains tool then tools
  else tools ++ [tool]

/-- `getAllowedTools(frontendAllowedTools?)`: start from the read-only
baseline and fold the user-approved list through the loop body. -/
def getAllowedTools (frontendAllowedTools : Option (List String)) : List String :=
  match frontendAllowedTools with
  | none => READ_ONLY_TOOLS
  | some l => l.foldl addApprovedTool READ_ONLY_TOOLS

/-- Spec-side blocklist membership, written from the spec's words: an entry
is blocklisted when it exactly equals a blocklist entry or starts with a
blocklist entry followed by `(`. -/
def specToolBlocked (t : String) : Bool :=
  BLOCKED_WRITE_TOOLS.any fun b => t == b || strStartsWith t (b ++ "(")

/-- Spec-side accumulation, written from the spec's words: append the
user-approved entries in their original order, skipping any blocklisted
entry and any entry already present in the result. -/
def specAppendApproved (acc : List String) : List String → List String
  | [] => acc
  | t :: ts =>
    if specToolBlocked t then specAppendApproved acc ts
    else if acc.contains t then specAppendApproved acc ts
    else specAppendApproved (acc ++ [t]) ts

/-- Spec-side allowed-tool computation: the fixed baseline, followed by the
filtered user-approved entries. -/
def computeAllowedToolsSpec (userApproved : Option (List String)) : List String :=
  match userApproved with
  | none => ["Read", "Grep", "Glob", "LSP", "Task"]
  | some ua => specAppendApproved ["Read", "Grep", "Glob", "LSP", "Task"] ua

example : getAllowedTools (some ["Bash", "WebSearch"]) =
    ["Read", "Grep", "Glob", "LSP", "Task", "WebSearch"] := by decide

example : getAllowedTools (some ["WriteFoo"]) =
    ["Read", "Grep", "Glob", "LSP", "Task", "WriteFoo"] := by decide

example : getAllowedTools (some ["Write(file)", "Read", "mcp__x"]) =
    ["Read", "Grep", "Glob", "LSP", "Task", "mcp__x"] := by decide

/-! ## Rules loader (`src/backend/rules/loader.ts`) -/

/-- `DEFAULT_RULES` constant of the rules loader (used when `RULES.md` is
missing or unreadable). -/
def DEFAULT_RULES : String :=
  "# Claude 代码分析助手规则\n\n你是一个专业的代码分析助手，帮助测试人员理解代码逻辑。\n\n## 可用能力（只读）\n- 读取代码文件\n- 搜索代码内容\n- 查找文件路径\n- 代码定义跳转\n\n## 回答规范\n1. **优先用文字描述**代码的功能和逻辑\n2. 可以使用**流程图、架构图**展示系统设计\n3. 避免**直接输出大段源码**\n4. 如需展示代码，只展示**关键片段**或**折叠显示**\n\n## 回答风格\n- 简洁直接\n- 重点突出\n- 从测试视角解释代码逻辑\n"

/-- Module state of the rules loader: the cached rules blob and the path to
`RULES.md`, both `null` until initialized. -/
structure RulesState where
  cachedRules : Option String
  rulesPath : Option String
deriving DecidableEq, Repr

/-- Outcome of the file-system interaction in `loadRules`: the file is
absent (`existsSync` is false), reads successfully, or the read fails. -/
inductive FileReadResult where
  | absent
  | ok (content : String)
  | failed
deriving DecidableEq, Repr

/-- `loadRules()`: falls back to `DEFAULT_RULES` when the path is not
initialized; caches and returns `DEFAULT_RULES` when the file is absent or
the read throws; caches and returns the file content on success.  Returns
the produced rules string together with the updated module state — it never
raises. -/
def loadRules (st : RulesState) (fs : FileReadResult) : String × RulesState :=
  match st.rulesPath with
  | none => (DEFAULT_RULES, st)
  | some _ =>
    match fs with
    | .absent => (DEFAULT_RULES, { st with cachedRules := some DEFAULT_RULES })
    | .ok content => (content, { st with cachedRules := some content })
    | .failed => (DEFAULT_RULES, { st with cachedRules := some DEFAULT_RULES })

/-- `getCachedRules()`: `cachedRules ?? DEFAULT_RULES`. -/
def getCachedRules (st : RulesState) : String :=
  st.cachedRules.getD DEFAULT_RULES

/-! ## Rule injector and turn executor (`src/unnamed/part_001`) -/

/-- The fixed separator placed between the rules document and the user
message by `prepareMessageWithRules`. -/
def RULES_SEPARATOR : String := "\n\n---\nUser message: "

/-- `prepareMessageWithRules(message, sessionId?)`: returns the message
unchanged when `sessionId` is truthy, otherwise prepends the cached rules
document (passed here explicitly as `rules`, the value of
`getCachedRules()`) followed by the fixed separator. -/
def prepareMessageWithRules (rules message : String) (sessionId : Option String) : String :=
  if truthyOptStr sessionId then message
  else rules ++ RULES_SEPARATOR ++ message

/-- The thrown JavaScript value caught by `executeClaudeCommand`: either an
`Error` instance (with `name` and `message`), or any other value, carried
with its `String(error)` rendering. -/
inductive JsError where
  | jsError (name message : String)
  | nonError (stringValue : String)
deriving DecidableEq, Repr

/-- `error instanceof Error ? error.message : ""`. -/
def errorMessageOf : JsError → String
  | .jsError _ m => m
  | .nonError _ => ""

/-- `error instanceof Error ? error.name : ""`. -/
def errorNameOf : JsError → String
  | .jsError n _ => n
  | .nonError _ => ""

/-- `String(error)`: for an `Error` instance, JavaScript's
`Error.prototype.toString` (the name, then `": "` and the message when the
message is nonempty); otherwise the carried string rendering. -/
def jsStringOf : JsError → String
  | .jsError n m => if m == "" then n else n ++ ": " ++ m
  | .nonError s => s

/-- The abort classification in the catch block:
`errorName === "AbortError" || errorMessage.includes("aborted by user")`. -/
def isAbortClass (e : JsError) : Bool :=
  errorNameOf e == "AbortError" || strIncludes (errorMessageOf e) "aborted by user"

/-- The text placed in the `error` terminal event:
`errorMessage || String(error)`. -/
def errorEventText (e : JsError) : String :=
  if errorMessageOf e == "" then jsStringOf e else errorMessageOf e

/-- The normalized outbound event (`StreamResponse` of shared/types): a
passthrough `claude_json` event or one of the three terminal events. -/
inductive StreamResponse where
  | claude_json (data : SDKMessage)
  | done
  | aborted
  | error (message : String)
deriving DecidableEq, Repr

/-- `true` exactly on the three terminal variants. -/
def isTerminalEvent : StreamResponse → Bool
  | .done => true
  | .aborted => true
  | .error _ => true
  | .claude_json _ => false

/-- `true` exactly on the passthrough variant. -/
def isClaudeJsonEvent : StreamResponse → Bool
  | .claude_json _ => true
  | _ => false

/-- `true` exactly on the `error` terminal variant. -/
def isErrorEvent : StreamResponse → Bool
  | .error _ => true
  | _ => false

/-- Outcome of the external `query(...)` call as observed by the
`for await` loop: the engine yields a sequence of SDK messages and then
either finishes normally or throws a JavaScript value (after having yielded
a — possibly empty — prefix of messages). -/
inductive EngineOutcome where
  | finished (events : List SDKMessage)
  | threw (emitted : List SDKMessage) (thrown : JsError)
deriving DecidableEq, Repr

/-- The options object passed to `query` (the engine).  `none` in an
optional field means the key is entirely absent from the object (the spread
of `{}`), not present with a null placeholder. -/
structure QueryOptions where
  executable : String
  executableArgs : List String
  pathToClaudeCodeExecutable : String
  resume : Option String
  allowedTools : List String
  cwd : Option String
  permissionMode : Option String
deriving DecidableEq, Repr

/-- Construction of the options object in `executeClaudeCommand`:
`...(sessionId ? { resume: sessionId } : {})`, `allowedTools:
safeAllowedTools`, `...(workingDirectory ? { cwd: workingDirectory } : {})`,
`...(permissionMode ? { permissionMode } : {})`. -/
def buildQueryOptions (cliPath : String) (sessionId : Option String)
    (safeAllowedTools : List String) (workingDirectory permissionMode : Option String) :
    QueryOptions :=
  { executable := "node"
    executableArgs := []
    pathToClaudeCodeExecutable := cliPath
    resume := if truthyOptStr sessionId then sessionId else none
    allowedTools := safeAllowedTools
    cwd := if truthyOptStr workingDirectory then workingDirectory else none
    permissionMode := if truthyOptStr permissionMode then permissionMode else none }

/-- Everything observable about one full run of the `executeClaudeCommand`
generator: the produced event sequence, the final state of the abort
controller map, and the prompt and options that were passed to `query`. -/
structure ExecResult where
  events : List StreamResponse
  registry : String → Bool
  prompt : String
  options : QueryOptions

/-- Shallow embedding of `executeClaudeCommand(message, requestId,
requestAbortControllers, cliPath, sessionId?, allowedTools?,
workingDirectory?, permissionMode?)`, fully consumed.  The steps of the
source in order: strip a leading `/` from the message; store an abort
controller under `requestId` in the map; merge the allowed tools through
`getAllowedTools`; prepend rules via `prepareMessageWithRules` (for a
falsy `sessionId`); call `query` with the prompt and options; forward each
yielded SDK message as a `claude_json` event; on normal end yield `done`;
in the catch block yield `aborted` for an abort-classified failure and
otherwise an `error` event with `errorMessage || String(error)`; in the
finally block delete the `requestId` entry from the map. -/
def executeClaudeCommand (message requestId : String)
    (requestAbortControllers : String → Bool) (cliPath : String)
    (sessionId : Option String) (allowedTools : Option (List String))
    (workingDirectory : Option String) (permissionMode : Option String)
    (rules : String) (outcome : EngineOutcome) : ExecResult :=
  let processedMessage :=
    if strStartsWith message "/" then strSubstringFrom1 message else message
  let registryDuring : String → Bool :=
    fun id => if id == requestId then true else requestAbortControllers id
  let safeAllowedTools := getAllowedTools allowedTools
  let messageWithRules := prepareMessageWithRules rules processedMessage sessionId
  let opts := buildQueryOptions cliPath sessionId safeAllowedTools
    workingDirectory permissionMode
  let events :=
    match outcome with
    | .finished evs => evs.map StreamResponse.claude_json ++ [StreamResponse.done]
    | .threw emitted e =>
      emitted.map StreamResponse.claude_json ++
        [if isAbortClass e then StreamResponse.aborted
         else StreamResponse.error (errorEventText e)]
  let registryAfter : String → Bool :=
    fun id => if id == requestId then false else registryDuring id
  { events := events
    registry := registryAfter
    prompt := messageWithRules
    options := opts }

/-! ## Lemmas about the tool-permission filter -/

theorem addApprovedTool_blocked {t : String} (acc : List String)
    (hb : isBlockedTool t = true) : addApprovedTool acc t = acc := by
  unfold addApprovedTool
  rw [if_pos hb]

theorem addApprovedTool_dup {t : String} (acc : List String)
    (hb : ¬isBlockedTool t = true) (hc : acc.contains t = true) :
    addApprovedTool acc t = acc := by
  unfold addApprovedTool
  rw [if_neg hb, if_pos hc]

theorem addApprovedTool_push {t : String} (acc : List String)
    (hb : ¬isBlockedTool t = true) (hc : ¬acc.contains t = true) :
    addApprovedTool acc t = acc ++ [t] := by
  unfold addApprovedTool
  rw [if_neg hb, if_neg hc]

theorem addApprovedTool_eq_or (acc : List String) (t : String) :
    addApprovedTool acc t = acc ∨ addApprovedTool acc t = acc ++ [t] := by
  by_cases hb : isBlockedTool t = true
  · exact Or.inl (addApprovedTool_blocked acc hb)
  · by_cases hc : acc.contains t = true
    · exact Or.inl (addApprovedTool_dup acc hb hc)
    · exact Or.inr (addApprovedTool_push acc hb hc)

theorem foldl_addApprovedTool_extends (l acc : List String) :
    ∃ rest, l.foldl addApprovedTool acc = acc ++ rest := by
  induction l generalizing acc with
  | nil => exact ⟨[], (List.append_nil acc).symm⟩
  | cons t ts ih =>
    rw [List.foldl_cons]
    rcases addApprovedTool_eq_or acc t with h | h
    · rcases ih (addApprovedTool acc t) with ⟨r, hr⟩
      exact ⟨r, by rw [hr, h]⟩
    · rcases ih (addApprovedTool acc t) with ⟨r, hr⟩
      exact ⟨t :: r, by rw [hr, h]; simp⟩

theorem mem_foldl_addApprovedTool_of_mem_acc {x : String} {acc : List String}
    (l : List String) (hx : x ∈ acc) : x ∈ l.foldl addApprovedTool acc := by
  rcases foldl_addApprovedTool_extends l acc with ⟨r, hr⟩
  rw [hr]
  exact List.mem_append_left _ hx

theorem foldl_addApprovedTool_not_blocked {acc : List String}
    (l : List String) (hacc : ∀ x ∈ acc, isBlockedTool x = false) :
    ∀ x ∈ l.foldl addApprovedTool acc, isBlockedTool x = false := by
  induction l generalizing acc with
  | nil => simpa using hacc
  | cons t ts ih =>
    rw [List.foldl_cons]
    apply ih
    intro x hx
    unfold addApprovedTool at hx
    by_cases hb : isBlockedTool t = true
    · rw [if_pos hb] at hx
      exact hacc x hx
    · rw [if_neg hb] at hx
      by_cases hc : acc.contains t = true
      · rw [if_pos hc] at hx
        exact hacc x hx
      · rw [if_neg hc] at hx
        rcases List.mem_append.1 hx with h | h
        · exact hacc x h
        · rcases List.mem_singleton.1 h with rfl
          cases hx2 : isBlockedTool x with
          | false => rfl
          | true => exact absurd hx2 hb

theorem mem_foldl_addApprovedTool_of_mem {t : String} (l : List String)
    (acc : List String) (ht : t ∈ l) (hb : isBlockedTool t = false) :
    t ∈ l.foldl addApprovedTool acc := by
  induction l generalizing acc with
  | nil => cases ht
  | cons a as ih =>
    rw [List.foldl_cons]
    rcases List.mem_cons.1 ht with rfl | ht
    · apply mem_foldl_addApprovedTool_of_mem_acc
      have hb' : ¬isBlockedTool t = true := by
        rw [hb]
        exact Bool.false_ne_true
      by_cases hc : acc.contains t = true
      · rw [addApprovedTool_dup acc hb' hc]
        exact List.mem_of_elem_eq_true hc
      · rw [addApprovedTool_push acc hb' hc]
        exact List.mem_append_right _ (List.mem_singleton.2 rfl)
    · exact ih _ ht

theorem readOnly_not_blocked : ∀ x ∈ READ_ONLY_TOOLS, isBlockedTool x = false := by
  decide

theorem specToolBlocked_eq_isBlockedTool : specToolBlocked = isBlockedTool := rfl

theorem specAppendApproved_eq_foldl (l acc : List String) :
    specAppendApproved acc l = l.foldl addApprovedTool acc := by
  induction l generalizing acc with
  | nil => rfl
  | cons t ts ih =>
    rw [List.foldl_cons]
    by_cases hb : isBlockedTool t = true
    · have hb' : specToolBlocked t = true := by
        rw [specToolBlocked_eq_isBlockedTool]
        exact hb
      simp only [specAppendApproved, if_pos hb']
      rw [ih, addApprovedTool_blocked acc hb]
    · have hb' : ¬specToolBlocked t = true := by
        rw [specToolBlocked_eq_isBlockedTool]
        exact hb
      by_cases hc : acc.contains t = true
      · simp only [specAppendApproved, if_neg hb', if_pos hc]
        rw [ih, addApprovedTool_dup acc hb hc]
      · simp only [specAppendApproved, if_neg hb', if_neg hc]
        rw [ih, addApprovedTool_push acc hb hc]

theorem getAllowedTools_not_blocked (ua : Option (List String)) :
    ∀ t ∈ getAllowedTools ua, isBlockedTool t = false := by
  cases ua with
  | none => exact readOnly_not_blocked
  | some l => exact foldl_addApprovedTool_not_blocked l readOnly_not_blocked

/-! ## Claims C1 and C6: the tool-permission filter -/

/-- Claim C1: `getAllowedTools` returns exactly the fixed read-only baseline
`["Read","Grep","Glob","LSP","Task"]` followed by the user-approved entries
in original order, skipping blocklisted entries (exact match or
`Name(`-prefixed) and entries already present; hence the result extends the
baseline, contains no blocklisted entry, and
`getAllowedTools ["Bash","WebSearch"]` is the five baseline tools plus
`"WebSearch"`. -/
theorem C1_getAllowedTools_correct :
    (∀ ua, getAllowedTools ua = computeAllowedToolsSpec ua) ∧
    (∀ ua, ∃ rest, getAllowedTools ua = READ_ONLY_TOOLS ++ rest) ∧
    (∀ ua t, t ∈ getAllowedTools ua → isBlockedTool t = false) ∧
    getAllowedTools (some ["Bash", "WebSearch"]) =
      ["Read", "Grep", "Glob", "LSP", "Task", "WebSearch"] := by
  refine ⟨?_, ?_, fun ua t => getAllowedTools_not_blocked ua t, by decide⟩
  · intro ua
    cases ua with
    | none => rfl
    | some l => exact (specAppendApproved_eq_foldl l READ_ONLY_TOOLS).symm
  · intro ua
    cases ua with
    | none => exact ⟨[], (List.append_nil _).symm⟩
    | some l => exact foldl_addApprovedTool_extends l READ_ONLY_TOOLS

/-- Witness for C1 at a concrete input: `"WebSearch"` is a member of the
computed list for `["Bash","WebSearch"]` and is not blocklisted. -/
theorem C1_getAllowedTools_correct_witness :
    isBlockedTool "WebSearch" = false :=
  C1_getAllowedTools_correct.2.2.1 (some ["Bash", "WebSearch"]) "WebSearch" (by decide)

/-- Claim C6 counterexample: the claim says any entry beginning with a
blocklisted name (e.g. beginning with `"Write"`) is excluded, but
`"WriteFoo"` begins with `"Write"` and is nevertheless kept by
`getAllowedTools`, because matching only rejects an exact match or a
`Name(`-prefixed entry. -/
theorem C6_counterexample :
    strStartsWith "WriteFoo" "Write" = true ∧
    "WriteFoo" ∈ getAllowedTools (some ["WriteFoo"]) := by
  decide

/-- Claim C6 (amended): blocklist matching excludes exactly the entries that
equal a blocklisted name or start with a blocklisted name followed by `(`;
such entries never appear in the result, while a user-approved entry that
does not match (even one merely beginning with a blocklisted name) is
always in the result. -/
theorem C6_blocklist_matching (ua : List String) (t : String) :
    (isBlockedTool t = true → t ∉ getAllowedTools (some ua)) ∧
    (t ∈ ua → isBlockedTool t = false → t ∈ getAllowedTools (some ua)) := by
  constructor
  · intro hb hmem
    rw [getAllowedTools_not_blocked (some ua) t hmem] at hb
    cases hb
  · intro ht hb
    exact mem_foldl_addApprovedTool_of_mem ua READ_ONLY_TOOLS ht hb

/-- Witness for C6 at a concrete input: `"Write(file)"` matches the
blocklist and is excluded; `"WriteFoo"` does not match and is kept. -/
theorem C6_blocklist_matching_witness :
    "Write(file)" ∉ getAllowedTools (some ["Write(file)", "WriteFoo"]) ∧
    "WriteFoo" ∈ getAllowedTools (some ["Write(file)", "WriteFoo"]) :=
  ⟨(C6_blocklist_matching ["Write(file)", "WriteFoo"] "Write(file)").1 (by decide),
   (C6_blocklist_matching ["Write(file)", "WriteFoo"] "WriteFoo").2 (by decide) (by decide)⟩

/-! ## Projection lemmas for the turn executor -/

theorem executeClaudeCommand_events (message requestId : String)
    (reg : String → Bool) (cliPath : String) (sessionId : Option String)
    (allowedTools : Option (List String)) (wd pm : Option String)
    (rules : String) (outcome : EngineOutcome) :
    (executeClaudeCommand message requestId reg cliPath sessionId allowedTools
        wd pm rules outcome).events =
      match outcome with
      | .finished evs => evs.map StreamResponse.claude_json ++ [StreamResponse.done]
      | .threw emitted e =>
        emitted.map StreamResponse.claude_json ++
          [if isAbortClass e then StreamResponse.aborted
           else StreamResponse.error (errorEventText e)] := rfl

theorem executeClaudeCommand_events_finished (message requestId : String)
    (reg : String → Bool) (cliPath : String) (sessionId : Option String)
    (allowedTools : Option (List String)) (wd pm : Option String)
    (rules : String) (evs : List SDKMessage) :
    (executeClaudeCommand message requestId reg cliPath sessionId allowedTools
        wd pm rules (.finished evs)).events =
      evs.map StreamResponse.claude_json ++ [StreamResponse.done] := rfl

theorem executeClaudeCommand_events_threw (message requestId : String)
    (reg : String → Bool) (cliPath : String) (sessionId : Option String)
    (allowedTools : Option (List String)) (wd pm : Option String)
    (rules : String) (emitted : List SDKMessage) (e : JsError) :
    (executeClaudeCommand message requestId reg cliPath sessionId allowedTools
        wd pm rules (.threw emitted e)).events =
      emitted.map StreamResponse.claude_json ++
        [if isAbortClass e then StreamResponse.aborted
         else StreamResponse.error (errorEventText e)] := rfl

theorem executeClaudeCommand_prompt (message requestId : String)
    (reg : String → Bool) (cliPath : String) (sessionId : Option String)
    (allowedTools : Option (List String)) (wd pm : Option String)
    (rules : String) (outcome : EngineOutcome) :
    (executeClaudeCommand message requestId reg cliPath sessionId allowedTools
        wd pm rules outcome).prompt =
      prepareMessageWithRules rules
        (if strStartsWith message "/" then strSubstringFrom1 message else message)
        sessionId := rfl

theorem executeClaudeCommand_options (message requestId : String)
    (reg : String → Bool) (cliPath : String) (sessionId : Option String)
    (allowedTools : Option (List String)) (wd pm : Option String)
    (rules : String) (outcome : EngineOutcome) :
    (executeClaudeCommand message requestId reg cliPath sessionId allowedTools
        wd pm rules outcome).options =
      buildQueryOptions cliPath sessionId (getAllowedTools allowedTools) wd pm := rfl

theorem executeClaudeCommand_registry (message requestId : String)
    (reg : String → Bool) (cliPath : String) (sessionId : Option String)
    (allowedTools : Option (List String)) (wd pm : Option String)
    (rules : String) (outcome : EngineOutcome) :
    (executeClaudeCommand message requestId reg cliPath sessionId allowedTools
        wd pm rules outcome).registry =
      fun id => if id == requestId then false else reg id := by
  funext id
  show (if id == requestId then false
    else if id == requestId then true else reg id) =
    (if id == requestId then false else reg id)
  by_cases h : (id == requestId) = true
  · rw [if_pos h, if_pos h]
  · rw [if_neg h, if_neg h, if_neg h]

/-! ## Claims C2, C3 and C5: the turn executor's terminal behaviour -/

/-- Claim C2: for every run of `executeClaudeCommand` (normal end of the
engine's event sequence, a cancellation-class failure, or any other
failure) the produced `StreamResponse` sequence ends in exactly one
terminal event (`done`, `aborted` or `error`), and every preceding element
is a `claude_json` event. -/
theorem C2_single_terminal_event (message requestId : String)
    (reg : String → Bool) (cliPath : String) (sessionId : Option String)
    (allowedTools : Option (List String)) (wd pm : Option String)
    (rules : String) (outcome : EngineOutcome) :
    ∃ pre t,
      (executeClaudeCommand message requestId reg cliPath sessionId allowedTools
          wd pm rules outcome).events = pre ++ [t] ∧
      isTerminalEvent t = true ∧
      ∀ x ∈ pre, isClaudeJsonEvent x = true ∧ isTerminalEvent x = false := by
  rw [executeClaudeCommand_events]
  cases outcome with
  | finished evs =>
    refine ⟨evs.map StreamResponse.claude_json, StreamResponse.done, rfl, rfl, ?_⟩
    intro x hx
    rcases List.mem_map.1 hx with ⟨m, _, rfl⟩
    exact ⟨rfl, rfl⟩
  | threw emitted e =>
    refine ⟨emitted.map StreamResponse.claude_json,
      if isAbortClass e then StreamResponse.aborted
      else StreamResponse.error (errorEventText e), rfl, ?_, ?_⟩
    · by_cases h : isAbortClass e = true
      · rw [if_pos h]
        rfl
      · rw [if_neg h]
        rfl
    · intro x hx
      rcases List.mem_map.1 hx with ⟨m, _, rfl⟩
      exact ⟨rfl, rfl⟩

/-- Claim C3 counterexample: for a thrown `Error` whose `name` is
`"TypeError"` and whose `message` is empty, the emitted `error` event
carries `String(error)` (here `"TypeError"`), not the failure's message
text `""` — so the claim's description of the error payload does not hold
for every non-abort failure. -/
theorem C3_counterexample :
    (executeClaudeCommand "hi" "r1" (fun _ => false) "/cli" none none none none
        "rules" (.threw [] (.jsError "TypeError" ""))).events =
      [StreamResponse.error "TypeError"] ∧
    errorMessageOf (.jsError "TypeError" "") = "" ∧
    ("TypeError" : String) ≠ "" := by
  refine ⟨rfl, rfl, by decide⟩

/-- Claim C3 (amended): when the engine call throws, the turn is classified
by `errorName === "AbortError" || errorMessage.includes("aborted by user")`:
an abort-classified failure ends the stream with an `aborted` event and no
`error` event is ever emitted; any other failure ends the stream with an
`error` event whose message is the failure's message text when the failure
is an `Error` with a nonempty message, and otherwise `String(error)`. -/
theorem C3_failure_classification (message requestId : String)
    (reg : String → Bool) (cliPath : String) (sessionId : Option String)
    (allowedTools : Option (List String)) (wd pm : Option String)
    (rules : String) (emitted : List SDKMessage) (e : JsError) :
    (isAbortClass e = true →
      (executeClaudeCommand message requestId reg cliPath sessionId allowedTools
          wd pm rules (.threw emitted e)).events =
        emitted.map StreamResponse.claude_json ++ [StreamResponse.aborted] ∧
      ∀ x ∈ (executeClaudeCommand message requestId reg cliPath sessionId allowedTools
          wd pm rules (.threw emitted e)).events, isErrorEvent x = false) ∧
    (isAbortClass e = false →
      (executeClaudeCommand message requestId reg cliPath sessionId allowedTools
          wd pm rules (.threw emitted e)).events =
        emitted.map StreamResponse.claude_json ++
          [StreamResponse.error (errorEventText e)]) ∧
    (∀ n m, e = .jsError n m → m ≠ "" → errorEventText e = m) := by
  refine ⟨?_, ?_, ?_⟩
  · intro h
    constructor
    · rw [executeClaudeCommand_events_threw, if_pos h]
    · intro x hx
      rw [executeClaudeCommand_events_threw] at hx
      rcases List.mem_append.1 hx with hx | hx
      · rcases List.mem_map.1 hx with ⟨m, _, rfl⟩
        rfl
      · rw [if_pos h] at hx
        rcases List.mem_singleton.1 hx with rfl
        rfl
  · intro h
    rw [executeClaudeCommand_events_threw]
    rw [if_neg (by rw [h]; exact Bool.false_ne_true)]
  · rintro n m rfl hm
    unfold errorEventText
    rw [if_neg (by simpa [errorMessageOf] using hm)]
    rfl

/-- Witness for C3 at concrete inputs: an abort-classified failure ends
with `aborted`; a plain failure ends with an `error` event carrying its
message text. -/
theorem C3_failure_classification_witness :
    (executeClaudeCommand "m" "r" (fun _ => false) "/cli" none none none none
        "R" (.threw [] (.jsError "AbortError" "x"))).events =
      [StreamResponse.aborted] ∧
    (executeClaudeCommand "m" "r" (fun _ => false) "/cli" none none none none
        "R" (.threw [] (.jsError "Error" "boom"))).events =
      [StreamResponse.error "boom"] :=
  ⟨((C3_failure_classification "m" "r" (fun _ => false) "/cli" none none none none
      "R" [] (.jsError "AbortError" "x")).1 (by decide)).1,
   by
    have h := (C3_failure_classification "m" "r" (fun _ => false) "/cli" none none
      none none "R" [] (.jsError "Error" "boom")).2.1 (by decide)
    simpa using h⟩

/-- Claim C5: on every terminal path — `done`, `aborted` or `error` — the
abort-controller registry entry for the turn's `requestId` is removed by
the `finally` block, so after the run the registry no longer contains that
`requestId`. -/
theorem C5_registry_cleanup (message requestId : String)
    (reg : String → Bool) (cliPath : String) (sessionId : Option String)
    (allowedTools : Option (List String)) (wd pm : Option String)
    (rules : String) (outcome : EngineOutcome) :
    (executeClaudeCommand message requestId reg cliPath sessionId allowedTools
        wd pm rules outcome).registry requestId = false := by
  rw [executeClaudeCommand_registry]
  simp

/-! ## Claims C4, C7, C8 and C10: prompt preparation and engine options -/

theorem truthyOptStr_some_of_ne {s : String} (hs : s ≠ "") :
    truthyOptStr (some s) = true := by
  simp [truthyOptStr, hs]

/-- Claim C4: without a `sessionId` the prompt handed to the engine is the
cached rules document, the fixed separator `"\n\n---\nUser message: "`, and
the slash-stripped original message (so for `"hello"` the engine sees
`<rules>\n\n---\nUser message: hello`); with a (non-empty) `sessionId` the
prompt is the original message unmodified apart from slash-stripping. -/
theorem C4_prompt_rules (message rules requestId cliPath : String)
    (reg : String → Bool) (allowedTools : Option (List String))
    (wd pm : Option String) (outcome : EngineOutcome) :
    ((executeClaudeCommand message requestId reg cliPath none allowedTools
        wd pm rules outcome).prompt =
      rules ++ "\n\n---\nUser message: " ++
        (if strStartsWith message "/" then strSubstringFrom1 message else message)) ∧
    (∀ s : String, s ≠ "" →
      (executeClaudeCommand message requestId reg cliPath (some s) allowedTools
          wd pm rules outcome).prompt =
        (if strStartsWith message "/" then strSubstringFrom1 message else message)) ∧
    (executeClaudeCommand "hello" requestId reg cliPath none allowedTools
        wd pm rules outcome).prompt = rules ++ "\n\n---\nUser message: hello" := by
  refine ⟨rfl, ?_, ?_⟩
  · intro s hs
    rw [executeClaudeCommand_prompt]
    unfold prepareMessageWithRules
    rw [if_pos (truthyOptStr_some_of_ne hs)]
  · rw [executeClaudeCommand_prompt]
    show rules ++ RULES_SEPARATOR ++ "hello" = rules ++ "\n\n---\nUser message: hello"
    rw [String.append_assoc]
    congr 1

/-- Witness for C4 at a concrete input: with session id `"sid1"` the
message `"hello"` reaches the engine unmodified. -/
theorem C4_prompt_rules_witness :
    (executeClaudeCommand "hello" "r1" (fun _ => false) "/cli" (some "sid1") none
        none none "RULES" (.finished [])).prompt = "hello" :=
  (C4_prompt_rules "hello" "RULES" "r1" "/cli" (fun _ => false) none none none
    (.finished [])).2.1 "sid1" (by decide)

/-- Claim C7: a leading `/` is stripped from the inbound message before it
is handed to the rule injector and the engine, whether or not a `sessionId`
is present; messages not beginning with `/` pass through this step
unchanged; `"/status"` on a new session reaches the engine as
`<rules>\n\n---\nUser message: status`. -/
theorem C7_slash_strip (message rules requestId cliPath : String)
    (reg : String → Bool) (sessionId : Option String)
    (allowedTools : Option (List String)) (wd pm : Option String)
    (outcome : EngineOutcome) :
    (strStartsWith message "/" = true →
      (executeClaudeCommand message requestId reg cliPath sessionId allowedTools
          wd pm rules outcome).prompt =
        prepareMessageWithRules rules (strSubstringFrom1 message) sessionId) ∧
    (strStartsWith message "/" = false →
      (executeClaudeCommand message requestId reg cliPath sessionId allowedTools
          wd pm rules outcome).prompt =
        prepareMessageWithRules rules message sessionId) ∧
    (∀ r : String,
      (executeClaudeCommand "/status" requestId reg cliPath none allowedTools
          wd pm r outcome).prompt = r ++ "\n\n---\nUser message: status") := by
  refine ⟨?_, ?_, ?_⟩
  · intro h
    rw [executeClaudeCommand_prompt, if_pos h]
  · intro h
    rw [executeClaudeCommand_prompt,
      if_neg (by rw [h]; exact Bool.false_ne_true)]
  · intro r
    rw [executeClaudeCommand_prompt]
    show r ++ RULES_SEPARATOR ++ strSubstringFrom1 "/status" =
      r ++ "\n\n---\nUser message: status"
    rw [String.append_assoc]
    congr 1

/-- Witness for C7 at a concrete input: `"/status"` is handed to the rule
injector with the leading slash stripped. -/
theorem C7_slash_strip_witness :
    (executeClaudeCommand "/status" "r2" (fun _ => false) "/cli" (some "sid1")
        none none none "RULES" (.finished [])).prompt =
      prepareMessageWithRules "RULES" (strSubstringFrom1 "/status") (some "sid1") :=
  (C7_slash_strip "/status" "RULES" "r2" "/cli" (fun _ => false) (some "sid1")
    none none none (.finished [])).1 (by decide)

/-- Claim C8: each optional engine parameter — resume token (`sessionId`),
working directory, permission mode — is present in the options passed to
`query` exactly when the corresponding request field is truthy, carrying
that field's value; when the field is absent or falsy the options key is
entirely missing (`none`), never a null or empty placeholder. -/
theorem C8_optional_params (message requestId cliPath rules : String)
    (reg : String → Bool) (sessionId : Option String)
    (allowedTools : Option (List String)) (wd pm : Option String)
    (outcome : EngineOutcome) :
    (truthyOptStr sessionId = false →
      (executeClaudeCommand message requestId reg cliPath sessionId allowedTools
          wd pm rules outcome).options.resume = none) ∧
    (truthyOptStr sessionId = true →
      (executeClaudeCommand message requestId reg cliPath sessionId allowedTools
          wd pm rules outcome).options.resume = sessionId) ∧
    (truthyOptStr wd = false →
      (executeClaudeCommand message requestId reg cliPath sessionId allowedTools
          wd pm rules outcome).options.cwd = none) ∧
    (truthyOptStr wd = true →
      (executeClaudeCommand message requestId reg cliPath sessionId allowedTools
          wd pm rules outcome).options.cwd = wd) ∧
    (truthyOptStr pm = false →
      (executeClaudeCommand message requestId reg cliPath sessionId allowedTools
          wd pm rules outcome).options.permissionMode = none) ∧
    (truthyOptStr pm = true →
      (executeClaudeCommand message requestId reg cliPath sessionId allowedTools
          wd pm rules outcome).options.permissionMode = pm) := by
  refine ⟨?_, ?_, ?_, ?_, ?_, ?_⟩ <;> intro h <;>
    simp [executeClaudeCommand_options, buildQueryOptions, h]

/-- Witness for C8 at concrete inputs: a provided session id appears as the
resume token; an omitted working directory leaves the key absent. -/
theorem C8_optional_params_witness :
    (executeClaudeCommand "m" "r" (fun _ => false) "/cli" (some "s1") none none
        (some "plan") "R" (.finished [])).options.resume = some "s1" ∧
    (executeClaudeCommand "m" "r" (fun _ => false) "/cli" (some "s1") none none
        (some "plan") "R" (.finished [])).options.cwd = none :=
  ⟨(C8_optional_params "m" "r" "/cli" "R" (fun _ => false) (some "s1") none none
      (some "plan") (.finished [])).2.1 (by decide),
   (C8_optional_params "m" "r" "/cli" "R" (fun _ => false) (some "s1") none none
      (some "plan") (.finished [])).2.2.1 (by decide)⟩

/-- Claim C10: a `sessionId` equal to the empty string is treated exactly
like an absent `sessionId` — the whole run is identical — and for every
`sessionId` the two decisions (inject rules, omit the resume token) are
made by the same truthiness test and therefore always agree: a falsy
`sessionId` yields a rules-prepended prompt and no resume key, a truthy one
yields the bare (slash-stripped) message and the resume key. -/
theorem C10_empty_sessionId (message requestId cliPath rules : String)
    (reg : String → Bool) (allowedTools : Option (List String))
    (wd pm : Option String) (outcome : EngineOutcome) :
    (executeClaudeCommand message requestId reg cliPath (some "") allowedTools
        wd pm rules outcome =
      executeClaudeCommand message requestId reg cliPath none allowedTools
        wd pm rules outcome) ∧
    (∀ sessionId : Option String,
      (truthyOptStr sessionId = false →
        (executeClaudeCommand message requestId reg cliPath sessionId allowedTools
            wd pm rules outcome).prompt =
          rules ++ "\n\n---\nUser message: " ++
            (if strStartsWith message "/" then strSubstringFrom1 message else message) ∧
        (executeClaudeCommand message requestId reg cliPath sessionId allowedTools
            wd pm rules outcome).options.resume = none) ∧
      (truthyOptStr sessionId = true →
        (executeClaudeCommand message requestId reg cliPath sessionId allowedTools
            wd pm rules outcome).prompt =
          (if strStartsWith message "/" then strSubstringFrom1 message else message) ∧
        (executeClaudeCommand message requestId reg cliPath sessionId allowedTools
            wd pm rules outcome).options.resume = sessionId)) := by
  refine ⟨rfl, ?_⟩
  intro sessionId
  constructor
  · intro h
    constructor
    · rw [executeClaudeCommand_prompt]
      unfold prepareMessageWithRules
      rw [if_neg (by rw [h]; exact Bool.false_ne_true)]
      rfl
    · simp [executeClaudeCommand_options, buildQueryOptions, h]
  · intro h
    constructor
    · rw [executeClaudeCommand_prompt]
      unfold prepareMessageWithRules
      rw [if_pos h]
    · simp [executeClaudeCommand_options, buildQueryOptions, h]

/-- Witness for C10 at a concrete input: with `sessionId = ""` the rules
are prepended and no resume token is passed. -/
theorem C10_empty_sessionId_witness :
    (executeClaudeCommand "hi" "r1" (fun _ => false) "/cli" (some "") none none
        none "R" (.finished [])).prompt = "R" ++ "\n\n---\nUser message: " ++ "hi" ∧
    (executeClaudeCommand "hi" "r1" (fun _ => false) "/cli" (some "") none none
        none "R" (.finished [])).options.resume = none :=
  ((C10_empty_sessionId "hi" "r1" "/cli" "R" (fun _ => false) none none none
    (.finished [])).2 (some "") ).1 (by decide)

/-! ## Claim C9: the rules loader never surfaces a failure -/

/-- Claim C9: `loadRules` never propagates a failure — with an uninitialized
path it returns the built-in default document (leaving the cache alone);
when the file is absent or the read fails it caches and returns the default
document; and `getCachedRules` always returns a string: the cached content
when one is cached, the default otherwise. -/
theorem C9_rules_fallback (st : RulesState) (fs : FileReadResult) :
    (st.rulesPath = none → loadRules st fs = (DEFAULT_RULES, st)) ∧
    (∀ p, st.rulesPath = some p → fs = .absent →
      loadRules st fs =
        (DEFAULT_RULES, { st with cachedRules := some DEFAULT_RULES })) ∧
    (∀ p, st.rulesPath = some p → fs = .failed →
      loadRules st fs =
        (DEFAULT_RULES, { st with cachedRules := some DEFAULT_RULES })) ∧
    (st.cachedRules = none → getCachedRules st = DEFAULT_RULES) ∧
    (∀ c, st.cachedRules = some c → getCachedRules st = c) := by
  refine ⟨?_, ?_, ?_, ?_, ?_⟩ <;> intros <;> simp_all [loadRules, getCachedRules]

/-- Witness for C9 at a concrete input: a failing read on an initialized
loader caches and returns the default rules. -/
theorem C9_rules_fallback_witness :
    loadRules ⟨none, some "/proj/RULES.md"⟩ FileReadResult.failed =
      (DEFAULT_RULES, ⟨some DEFAULT_RULES, some "/proj/RULES.md"⟩) :=
  (C9_rules_fallback ⟨none, some "/proj/RULES.md"⟩ FileReadResult.failed).2.2.1
    "/proj/RULES.md" rfl rfl

end FsWebui
